import Mathlib

/-!
Shallow embedding of the exchange-rate monitor
(`bots/exchange_monitor.py`, class `ExchangeMonitor`): the history store,
rate validation, recording, the check-and-record composition and the
retention pruning, together with theorems about their behaviour.

Modelling conventions:
* floats are modelled as `ℚ`; a possibly-absent (`None`) rate as `Option ℚ`;
* the JSON history dict is an insertion-ordered association list
  `List (String × RateRecord)`; Python `dict` lookup / item assignment are
  `findRecord` / `setRecord`;
* the file on disk is `Option Store`: `none` models a missing or unreadable
  file (`load_history` catches the exception and falls back to `{}`);
* a possibly failing write is a `write_ok : Bool` flag: `save_history`
  catches every exception, so a failed write leaves the disk unchanged and
  control returns normally;
* `datetime.now().isoformat()` is passed in explicitly as the `now`
  argument, and `datetime.fromisoformat` as an abstract `parseIso`
  function into an abstract linear timeline `ℤ`;
* the alert callback `send_alert_func` is `Option Bool`: `none` when no
  callback is supplied, `some raises` for a supplied callback that raises
  (`raises = true`) or returns normally; `check_and_record` additionally
  reports how many times it called `record_rate` and the callback, so that
  invocation itself (not only its success) is observable.
-/

namespace ExchangeMonitor

/-- One stored history entry: the JSON object kept per currency-pair key,
fields `rate`, `timestamp`, `update_time`.  The rate is `Option ℚ` because a
record read back from JSON may lack the field (`last_record.get("rate")`). -/
structure RateRecord where
  rate : Option ℚ
  timestamp : String
  update_time : String
  deriving DecidableEq, Repr

/-- The history store: the JSON dict mapping pair key to record, modelled as
an association list in insertion order. -/
abbrev Store := List (String × RateRecord)

/-- Constructor configuration of `ExchangeMonitor`
(`change_threshold`, `rate_min`, `rate_max`). -/
structure MonitorConfig where
  change_threshold : ℚ
  rate_min : ℚ
  rate_max : ℚ
  deriving DecidableEq, Repr

/-- The module defaults: `DEFAULT_CHANGE_THRESHOLD = 5.0`,
`DEFAULT_RATE_MIN = 0.01`, `DEFAULT_RATE_MAX = 10000.0`. -/
def defaultConfig : MonitorConfig := ⟨5, 1 / 100, 10000⟩

/-- `_get_currency_key`: `f"{from_currency}_{to_currency}"`. -/
def getCurrencyKey (from_currency to_currency : String) : String :=
  from_currency ++ "_" ++ to_currency

/-- `load_history`: returns the parsed file contents, or `{}` when the file
is missing or reading/parsing raised (the exception is caught and logged). -/
def loadHistory (disk : Option Store) : Store :=
  disk.getD []

/-- Python dict lookup `history.get(key)` on the association list. -/
def findRecord : Store → String → Option RateRecord
  | [], _ => none
  | (k, v) :: rest, key => if k = key then some v else findRecord rest key

/-- Python dict item assignment `history[key] = record`: replaces the
entry in place if the key is present, otherwise appends it. -/
def setRecord : Store → String → RateRecord → Store
  | [], key, r => [(key, r)]
  | (k, v) :: rest, key, r =>
    if k = key then (key, r) :: rest else (k, v) :: setRecord rest key r

/-- `get_last_rate`: load the history and look up the pair key. -/
def getLastRate (disk : Option Store) (from_currency to_currency : String) :
    Option RateRecord :=
  findRecord (loadHistory disk) (getCurrencyKey from_currency to_currency)

/-- The last stored rate value for a pair, as read by the volatility check:
`last_record.get("rate")` when a record exists. -/
def lastStoredRate (disk : Option Store) (from_currency to_currency : String) :
    Option ℚ :=
  (getLastRate disk from_currency to_currency).bind (fun rec => rec.rate)

/-- Result triple of `validate_rate`:
`(是否通过校验, 错误信息, 波动百分比)`. -/
structure ValidationResult where
  is_valid : Bool
  message : String
  change_pct : Option ℚ
  deriving DecidableEq, Repr

/-- Rejection message for a missing rate: `"汇率值为空"`
("rate value is empty"). -/
def emptyRateMessage : String := "汇率值为空"

/-- Rejection message for a non-positive rate, citing the offending value:
`f"汇率值异常: {rate} (应为正数)"` ("should be positive"). -/
def nonPositiveMessage (rate : ℚ) : String :=
  s!"汇率值异常: {rate} (应为正数)"

/-- Rejection message for an out-of-range rate, citing the value and both
configured bounds: `f"汇率值超出合理范围: {rate} (应在 {min} ~ {max} 之间)"`. -/
def outOfRangeMessage (rate rate_min rate_max : ℚ) : String :=
  s!"汇率值超出合理范围: {rate} (应在 {rate_min} ~ {rate_max} 之间)"

/-- Rejection message for excessive volatility, citing the signed
percentage, the previous and new rates, and the threshold. -/
def volatilityMessage (change_pct last_rate rate threshold : ℚ) : String :=
  s!"汇率波动过大: {change_pct}% (从 {last_rate} 到 {rate}, 阈值 {threshold}%)"

/-- Acceptance message `"正常"`. -/
def okMessage : String := "正常"

/-- `validate_rate(rate, from_currency, to_currency, check_volatility)`:
null check, sign check, range check, then (optionally) the volatility check
against the last stored rate.  `if last_rate and last_rate > 0` skips the
volatility comparison when the stored rate is absent, zero (falsy) or
negative. -/
def validateRate (cfg : MonitorConfig) (disk : Option Store) (rate : Option ℚ)
    (from_currency to_currency : String) (check_volatility : Bool) :
    ValidationResult :=
  match rate with
  | none => ⟨false, emptyRateMessage, none⟩
  | some r =>
    if r ≤ 0 then ⟨false, nonPositiveMessage r, none⟩
    else if r < cfg.rate_min ∨ r > cfg.rate_max then
      ⟨false, outOfRangeMessage r cfg.rate_min cfg.rate_max, none⟩
    else if check_volatility then
      match getLastRate disk from_currency to_currency with
      | some last_record =>
        match last_record.rate with
        | some last_rate =>
          if last_rate > 0 then
            let change_pct := (r - last_rate) / last_rate * 100
            if |change_pct| > cfg.change_threshold then
              ⟨false,
                volatilityMessage change_pct last_rate r cfg.change_threshold,
                some change_pct⟩
            else ⟨true, okMessage, some change_pct⟩
          else ⟨true, okMessage, none⟩
        | none => ⟨true, okMessage, none⟩
      | none => ⟨true, okMessage, none⟩
    else ⟨true, okMessage, none⟩

/-- `validate_rate` together with the disk state after the call: the body
only calls `get_last_rate` → `load_history` (a read) and contains no
`save_history` call, so the embedded I/O behaviour returns the disk
unchanged. -/
def validateRateDisk (cfg : MonitorConfig) (disk : Option Store)
    (rate : Option ℚ) (from_currency to_currency : String)
    (check_volatility : Bool) : ValidationResult × Option Store :=
  (validateRate cfg disk rate from_currency to_currency check_volatility, disk)

/-- `record_rate(rate, from_currency, to_currency, update_time)`: load the
history, overwrite the entry at the pair key with a fresh record stamped
`now`, and save.  On write failure (`write_ok = false`) `save_history`
catches the exception, so the disk is left as it was and the call still
returns normally. -/
def recordRate (disk : Option Store) (write_ok : Bool) (rate : Option ℚ)
    (from_currency to_currency update_time now : String) : Option Store :=
  let history := loadHistory disk
  let key := getCurrencyKey from_currency to_currency
  let history2 := setRecord history key ⟨rate, now, update_time⟩
  if write_ok then some history2 else disk

/-- The result dict of `check_and_record`:
`success`, `message`, `rate`, `last_rate`, `change_pct`, `alert_sent`. -/
structure CheckResult where
  success : Bool
  message : String
  rate : Option ℚ
  last_rate : Option ℚ
  change_pct : Option ℚ
  alert_sent : Bool
  deriving DecidableEq, Repr

/-- Full outcome of one `check_and_record` call: the returned dict, the disk
afterwards, and how many times `record_rate` and the alert callback were
called. -/
structure CheckOutcome where
  result : CheckResult
  disk : Option Store
  record_calls : ℕ
  alert_calls : ℕ
  deriving DecidableEq, Repr

/-- `check_and_record(rate, from_currency, to_currency, update_time,
send_alert_func)`: read the last record, validate, then either record the
accepted rate or (on rejection, when a callback is supplied) invoke the
callback inside `try`, setting `alert_sent` only after it returns without
raising. -/
def checkAndRecord (cfg : MonitorConfig) (disk : Option Store)
    (write_ok : Bool) (rate : Option ℚ)
    (from_currency to_currency update_time now : String)
    (alert_func : Option Bool) : CheckOutcome :=
  let last_rate := lastStoredRate disk from_currency to_currency
  let v := validateRate cfg disk rate from_currency to_currency true
  if v.is_valid then
    ⟨⟨true, v.message, rate, last_rate, v.change_pct, false⟩,
      recordRate disk write_ok rate from_currency to_currency update_time now,
      1, 0⟩
  else
    match alert_func with
    | none => ⟨⟨false, v.message, rate, last_rate, v.change_pct, false⟩, disk, 0, 0⟩
    | some raises =>
      ⟨⟨false, v.message, rate, last_rate, v.change_pct, !raises⟩, disk, 0, 1⟩

/-- `clean_old_records(days)`: load the history, keep exactly the entries
whose `timestamp` parses and is strictly newer than `now - days`, keep every
entry whose timestamp fails to parse (`ValueError`/`TypeError` caught), and
save the cleaned dict. -/
def cleanOldRecords (parseIso : String → Option ℤ) (now days : ℤ)
    (disk : Option Store) (write_ok : Bool) : Option Store :=
  let history := loadHistory disk
  let cutoff := now - days
  let cleaned := history.filter (fun p =>
    match parseIso p.2.timestamp with
    | some d => decide (d > cutoff)
    | none => true)
  if write_ok then some cleaned else disk

/-! ### Helper lemmas about the association-list store -/

theorem findRecord_setRecord_self (h : Store) (key : String) (r : RateRecord) :
    findRecord (setRecord h key r) key = some r := by
  induction h with
  | nil => simp [setRecord, findRecord]
  | cons p rest ih =>
    obtain ⟨k, v⟩ := p
    by_cases hk : k = key
    · simp [setRecord, hk, findRecord]
    · simp [setRecord, hk, findRecord, ih]

theorem findRecord_setRecord_ne (h : Store) (key k2 : String) (r : RateRecord)
    (hne : k2 ≠ key) : findRecord (setRecord h key r) k2 = findRecord h k2 := by
  induction h with
  | nil => simp [setRecord, findRecord, Ne.symm hne]
  | cons p rest ih =>
    obtain ⟨k, v⟩ := p
    by_cases hk : k = key
    · subst hk
      simp [setRecord, findRecord, Ne.symm hne]
    · simp [setRecord, hk, findRecord, ih]

theorem setRecord_setRecord (h : Store) (key : String) (r1 r2 : RateRecord) :
    setRecord (setRecord h key r1) key r2 = setRecord h key r2 := by
  induction h with
  | nil => simp [setRecord]
  | cons p rest ih =>
    obtain ⟨k, v⟩ := p
    by_cases hk : k = key
    · simp [setRecord, hk]
    · simp [setRecord, hk, ih]

theorem filter_setRecord (h : Store) (key : String) (r : RateRecord) :
    (setRecord h key r).filter (fun p => decide (p.1 ≠ key))
      = h.filter (fun p => decide (p.1 ≠ key)) := by
  induction h with
  | nil => simp [setRecord]
  | cons p rest ih =>
    obtain ⟨k, v⟩ := p
    by_cases hk : k = key
    · simp [setRecord, hk]
    · simpa [setRecord, hk] using ih

theorem countP_key_eq_zero (h : Store) (key : String)
    (hnot : key ∉ h.map Prod.fst) :
    h.countP (fun p => decide (p.1 = key)) = 0 := by
  induction h with
  | nil => simp
  | cons p rest ih =>
    obtain ⟨k, v⟩ := p
    simp only [List.map_cons, List.mem_cons] at hnot
    push_neg at hnot
    rw [List.countP_cons, ih hnot.2]
    simp [Ne.symm hnot.1]

theorem countP_setRecord (h : Store) (key : String) (r : RateRecord)
    (hnd : (h.map Prod.fst).Nodup) :
    (setRecord h key r).countP (fun p => decide (p.1 = key)) = 1 := by
  induction h with
  | nil => simp [setRecord]
  | cons p rest ih =>
    obtain ⟨k, v⟩ := p
    simp only [List.map_cons, List.nodup_cons] at hnd
    by_cases hk : k = key
    · subst hk
      rw [show setRecord ((k, v) :: rest) k r = (k, r) :: rest from by
        simp [setRecord]]
      rw [List.countP_cons, countP_key_eq_zero rest k hnd.1]
      simp
    · rw [show setRecord ((k, v) :: rest) key r
          = (k, v) :: setRecord rest key r from by simp [setRecord, hk]]
      rw [List.countP_cons, ih hnd.2]
      simp [hk]

/-! ### Theorems about the claims -/

/-- **C5.** A `None` rate is rejected with the "rate value is empty" message
(`"汇率值为空"`), and any present non-positive rate is rejected with the
message citing the offending value and saying it should be positive
(`"应为正数"`); in both cases `change_pct` is absent. -/
theorem validate_missing_or_nonpositive (cfg : MonitorConfig)
    (disk : Option Store) (f t : String) (cv : Bool) :
    validateRate cfg disk none f t cv = ⟨false, emptyRateMessage, none⟩ ∧
    ∀ r : ℚ, r ≤ 0 →
      validateRate cfg disk (some r) f t cv
        = ⟨false, nonPositiveMessage r, none⟩ := by
  refine ⟨rfl, fun r hr => ?_⟩
  simp [validateRate, hr]

/-- Witness for `validate_missing_or_nonpositive` at `rate = -1`. -/
theorem validate_missing_or_nonpositive_witness :
    validateRate defaultConfig none (some (-1)) "CNY" "PHP" true
      = ⟨false, nonPositiveMessage (-1), none⟩ :=
  (validate_missing_or_nonpositive defaultConfig none "CNY" "PHP" true).2
    (-1) (by norm_num)

/-- **C4.** A positive rate strictly below `rate_min` or strictly above
`rate_max` is rejected with the message citing the value and both bounds,
with `change_pct` absent; and both bounds are inclusive: a rate equal to
`rate_min` or to `rate_max` passes the range check (here shown with the
volatility check disabled: the call accepts). -/
theorem validate_range_check (cfg : MonitorConfig) (disk : Option Store)
    (f t : String) (cv : Bool) (r : ℚ) :
    (0 < r → (r < cfg.rate_min ∨ r > cfg.rate_max) →
      validateRate cfg disk (some r) f t cv
        = ⟨false, outOfRangeMessage r cfg.rate_min cfg.rate_max, none⟩) ∧
    (0 < cfg.rate_min → cfg.rate_min ≤ cfg.rate_max →
      (validateRate cfg disk (some cfg.rate_min) f t false).is_valid = true ∧
      (validateRate cfg disk (some cfg.rate_max) f t false).is_valid = true) := by
  constructor
  · intro h0 hout
    simp [validateRate, not_le.mpr h0, hout]
  · intro hmin hle
    constructor
    · simp [validateRate, not_le.mpr hmin, not_lt.mpr le_rfl, not_lt.mpr hle]
    · have hmax : (0 : ℚ) < cfg.rate_max := lt_of_lt_of_le hmin hle
      simp [validateRate, not_le.mpr hmax, not_lt.mpr hle, not_lt.mpr le_rfl]

/-- Witness for `validate_range_check`: `20000` is above the default
`rate_max = 10000` and rejected; the default bounds themselves pass. -/
theorem validate_range_check_witness :
    validateRate defaultConfig none (some 20000) "CNY" "PHP" true
      = ⟨false, outOfRangeMessage 20000 (1 / 100) 10000, none⟩ ∧
    (validateRate defaultConfig none (some (1 / 100)) "CNY" "PHP" false).is_valid
      = true := by
  constructor
  · exact (validate_range_check defaultConfig none "CNY" "PHP" true 20000).1
      (by norm_num) (Or.inr (by norm_num [defaultConfig]))
  · exact ((validate_range_check defaultConfig none "CNY" "PHP" true
      (1 / 100)).2 (by norm_num [defaultConfig])
      (by norm_num [defaultConfig])).1

/-- **C1.** For a present, positive, in-range rate with volatility checking
on: when no prior rate is stored, or the stored prior rate is missing or
not positive, the call accepts with `change_pct` absent; otherwise
`change_pct` is the signed percentage `(rate - last) / last * 100`, the
call rejects exactly when its absolute value exceeds the threshold, and
`change_pct` is populated in the accepting case too. -/
theorem validate_volatility (cfg : MonitorConfig) (disk : Option Store)
    (f t : String) (r : ℚ) (h0 : 0 < r) (hmin : cfg.rate_min ≤ r)
    (hmax : r ≤ cfg.rate_max) :
    (lastStoredRate disk f t = none →
      validateRate cfg disk (some r) f t true = ⟨true, okMessage, none⟩) ∧
    (∀ lr : ℚ, lastStoredRate disk f t = some lr → lr ≤ 0 →
      validateRate cfg disk (some r) f t true = ⟨true, okMessage, none⟩) ∧
    (∀ lr : ℚ, lastStoredRate disk f t = some lr → 0 < lr →
      (validateRate cfg disk (some r) f t true).change_pct
        = some ((r - lr) / lr * 100) ∧
      ((validateRate cfg disk (some r) f t true).is_valid = false ↔
        cfg.change_threshold < |(r - lr) / lr * 100|) ∧
      ((validateRate cfg disk (some r) f t true).is_valid = true ↔
        |(r - lr) / lr * 100| ≤ cfg.change_threshold)) := by
  have hn0 : ¬r ≤ 0 := not_le.mpr h0
  have hnr : ¬(r < cfg.rate_min ∨ r > cfg.rate_max) := by
    push_neg
    exact ⟨hmin, hmax⟩
  cases hgl : getLastRate disk f t with
  | none =>
    refine ⟨fun _ => ?_, fun lr hlr _ => ?_, fun lr hlr _ => ?_⟩
    · simp [validateRate, hn0, hnr, hgl]
    · simp [lastStoredRate, hgl] at hlr
    · simp [lastStoredRate, hgl] at hlr
  | some rec =>
    have hbind : lastStoredRate disk f t = rec.rate := by
      simp [lastStoredRate, hgl]
    refine ⟨fun hnone => ?_, fun lr hlr hle => ?_, fun lr hlr hpos => ?_⟩
    · rw [hbind] at hnone
      simp [validateRate, hn0, hnr, hgl, hnone]
    · rw [hbind] at hlr
      simp [validateRate, hn0, hnr, hgl, hlr, not_lt.mpr hle]
    · rw [hbind] at hlr
      by_cases hth : cfg.change_threshold < |(r - lr) / lr * 100|
      · have hv : validateRate cfg disk (some r) f t true
            = ⟨false, volatilityMessage ((r - lr) / lr * 100) lr r
                cfg.change_threshold, some ((r - lr) / lr * 100)⟩ := by
          simp [validateRate, hn0, hnr, hgl, hlr, hpos, hth]
        rw [hv]
        exact ⟨rfl, by simpa using hth, by simpa using not_le.mpr hth⟩
      · have hv : validateRate cfg disk (some r) f t true
            = ⟨true, okMessage, some ((r - lr) / lr * 100)⟩ := by
          simp [validateRate, hn0, hnr, hgl, hlr, hpos, hth]
        rw [hv]
        exact ⟨rfl, by simpa using hth, by simpa using not_lt.mp hth⟩

/-- Witness for `validate_volatility`: the spec's concrete scenario, prior
rate `7.85`, new rate `8.5`, change `+1300/157 % ≈ +8.28 % > 5 %`:
rejected with the signed percentage populated. -/
theorem validate_volatility_witness :
    (validateRate defaultConfig
        (some [("CNY_PHP", ⟨some (157 / 20), "ts", ""⟩)]) (some (17 / 2))
        "CNY" "PHP" true).is_valid = false ∧
    (validateRate defaultConfig
        (some [("CNY_PHP", ⟨some (157 / 20), "ts", ""⟩)]) (some (17 / 2))
        "CNY" "PHP" true).change_pct
      = some ((17 / 2 - 157 / 20) / (157 / 20) * 100) := by
  have h := validate_volatility defaultConfig
      (some [("CNY_PHP", ⟨some (157 / 20), "ts", ""⟩)]) "CNY" "PHP" (17 / 2)
      (by norm_num) (by norm_num [defaultConfig]) (by norm_num [defaultConfig])
  have h3 := h.2.2 (157 / 20) (by rfl) (by norm_num)
  refine ⟨h3.2.1.mpr ?_, h3.1⟩
  rw [show |((17 : ℚ) / 2 - 157 / 20) / (157 / 20) * 100| = 1300 / 157 by
    rw [abs_of_pos (by norm_num)]
    norm_num]
  norm_num [defaultConfig]

/-- **C9.** `validate_rate` never mutates the history store: the embedded
call (result plus disk after the call) returns the disk unchanged on every
input, in particular on every rejected one. -/
theorem validate_no_mutation (cfg : MonitorConfig) (disk : Option Store)
    (rate : Option ℚ) (f t : String) (cv : Bool) :
    (validateRateDisk cfg disk rate f t cv).2 = disk ∧
    ((validateRateDisk cfg disk rate f t cv).1.is_valid = false →
      (validateRateDisk cfg disk rate f t cv).2 = disk) :=
  ⟨rfl, fun _ => rfl⟩

/-- Witness for `validate_no_mutation`: a rejected call (missing rate)
leaves a concrete one-entry store untouched. -/
theorem validate_no_mutation_witness :
    (validateRateDisk defaultConfig
        (some [("CNY_PHP", ⟨some (157 / 20), "ts", ""⟩)])
        none "CNY" "PHP" true).2
      = some [("CNY_PHP", ⟨some (157 / 20), "ts", ""⟩)] :=
  (validate_no_mutation defaultConfig
      (some [("CNY_PHP", ⟨some (157 / 20), "ts", ""⟩)])
      none "CNY" "PHP" true).2 rfl

/-- **C8.** Recording the same inputs twice in a row leaves the store in
the same observable state as recording once: the double write equals the
single write (carrying the second call's timestamp), the pair key maps to
the single entry holding that rate, and in a store with distinct keys (as
any JSON dict has) the key occurs exactly once afterwards. -/
theorem record_idempotent (disk : Option Store) (rate : Option ℚ)
    (f t ut t1 t2 : String) :
    recordRate (recordRate disk true rate f t ut t1) true rate f t ut t2
      = recordRate disk true rate f t ut t2 ∧
    findRecord (loadHistory (recordRate disk true rate f t ut t2))
      (getCurrencyKey f t) = some ⟨rate, t2, ut⟩ ∧
    (((loadHistory disk).map Prod.fst).Nodup →
      (loadHistory (recordRate disk true rate f t ut t2)).countP
        (fun p => decide (p.1 = getCurrencyKey f t)) = 1) := by
  refine ⟨?_, ?_, fun hnd => ?_⟩
  · simp [recordRate, loadHistory, setRecord_setRecord]
  · simp [recordRate, loadHistory, findRecord_setRecord_self]
  · simpa [recordRate, loadHistory] using
      countP_setRecord (loadHistory disk) (getCurrencyKey f t)
        ⟨rate, t2, ut⟩ hnd

/-- Witness for `record_idempotent`: recording into an empty store leaves
exactly one entry at the pair key. -/
theorem record_idempotent_witness :
    (loadHistory (recordRate (some []) true (some (157 / 20))
        "CNY" "PHP" "" "T2")).countP
      (fun p => decide (p.1 = getCurrencyKey "CNY" "PHP")) = 1 :=
  (record_idempotent (some []) (some (157 / 20))
      "CNY" "PHP" "" "T1" "T2").2.2 (by simp [loadHistory])

/-- **C10.** `record_rate` overwrites only the entry at the pair key
`from + "_" + to`: every other key looks up to exactly what it did before
the call, and the sublist of entries at other keys is unchanged. -/
theorem record_frame (disk : Option Store) (write_ok : Bool)
    (rate : Option ℚ) (f t ut now k2 : String)
    (hne : k2 ≠ getCurrencyKey f t) :
    findRecord (loadHistory (recordRate disk write_ok rate f t ut now)) k2
      = findRecord (loadHistory disk) k2 ∧
    (loadHistory (recordRate disk write_ok rate f t ut now)).filter
        (fun p => decide (p.1 ≠ getCurrencyKey f t))
      = (loadHistory disk).filter
        (fun p => decide (p.1 ≠ getCurrencyKey f t)) := by
  cases write_ok with
  | false => exact ⟨rfl, rfl⟩
  | true =>
    refine ⟨?_, ?_⟩
    · simpa [recordRate, loadHistory] using
        findRecord_setRecord_ne (disk.getD []) (getCurrencyKey f t) k2
          ⟨rate, now, ut⟩ hne
    · simpa [recordRate, loadHistory] using
        filter_setRecord (disk.getD []) (getCurrencyKey f t) ⟨rate, now, ut⟩

/-- Witness for `record_frame`: recording `CNY→PHP` leaves the `USD_PHP`
entry of a concrete store untouched. -/
theorem record_frame_witness :
    findRecord (loadHistory (recordRate
        (some [("USD_PHP", ⟨some 56, "ts", ""⟩)]) true (some (157 / 20))
        "CNY" "PHP" "" "T")) "USD_PHP"
      = some ⟨some 56, "ts", ""⟩ := by
  have h := record_frame (some [("USD_PHP", ⟨some 56, "ts", ""⟩)]) true
      (some (157 / 20)) "CNY" "PHP" "" "T" "USD_PHP" (by decide)
  rw [h.1]
  rfl

/-- **C2, counterexample.** On a rejected rate with a supplied callback
that raises, the callback is invoked (one call is made) and yet the
returned `alert_sent` flag is `false`: the flag does not report whether the
callback was invoked. -/
theorem check_and_record_flag_cex :
    (checkAndRecord defaultConfig (some []) true none "CNY" "PHP" "" "T"
        (some true)).alert_calls = 1 ∧
    (checkAndRecord defaultConfig (some []) true none "CNY" "PHP" "" "T"
        (some true)).result.alert_sent = false :=
  ⟨rfl, rfl⟩

/-- **C2, amended.** `check_and_record` returns the `validate_rate` outcome
(success flag, message, change percentage) in both cases; it calls
`record_rate` exactly when validation accepted and never on rejection; when
a callback is supplied it invokes it exactly when validation rejected, and
never on acceptance; and the returned `alert_sent` flag reports that the
callback was invoked and completed without raising (it stays `false` when
the callback raised or none was supplied). -/
theorem check_and_record_spec (cfg : MonitorConfig) (disk : Option Store)
    (write_ok : Bool) (rate : Option ℚ) (f t ut now : String)
    (alert_func : Option Bool) :
    (checkAndRecord cfg disk write_ok rate f t ut now alert_func).result.success
      = (validateRate cfg disk rate f t true).is_valid ∧
    (checkAndRecord cfg disk write_ok rate f t ut now alert_func).result.message
      = (validateRate cfg disk rate f t true).message ∧
    (checkAndRecord cfg disk write_ok rate f t ut now alert_func).result.change_pct
      = (validateRate cfg disk rate f t true).change_pct ∧
    ((checkAndRecord cfg disk write_ok rate f t ut now alert_func).record_calls = 1
      ↔ (validateRate cfg disk rate f t true).is_valid = true) ∧
    ((validateRate cfg disk rate f t true).is_valid = false →
      (checkAndRecord cfg disk write_ok rate f t ut now alert_func).record_calls = 0) ∧
    (∀ b : Bool, alert_func = some b →
      ((checkAndRecord cfg disk write_ok rate f t ut now alert_func).alert_calls = 1
        ↔ (validateRate cfg disk rate f t true).is_valid = false)) ∧
    ((validateRate cfg disk rate f t true).is_valid = true →
      (checkAndRecord cfg disk write_ok rate f t ut now alert_func).alert_calls = 0) ∧
    ((checkAndRecord cfg disk write_ok rate f t ut now alert_func).result.alert_sent = true
      ↔ ((validateRate cfg disk rate f t true).is_valid = false ∧
          alert_func = some false)) := by
  cases hv : (validateRate cfg disk rate f t true).is_valid with
  | true => simp [checkAndRecord, hv]
  | false =>
    cases alert_func with
    | none => simp [checkAndRecord, hv]
    | some b => cases b <;> simp [checkAndRecord, hv]

/-- Witness for `check_and_record_spec`: a rejected rate with a supplied
well-behaved callback makes exactly one callback invocation. -/
theorem check_and_record_spec_witness :
    (checkAndRecord defaultConfig none true none "CNY" "PHP" "" "T"
        (some false)).alert_calls = 1 := by
  have h := check_and_record_spec defaultConfig none true none "CNY" "PHP"
      "" "T" (some false)
  exact (h.2.2.2.2.2.1 false rfl).mpr rfl

/-- **C7.** When validation rejects and the supplied callback raises, the
failure is caught: `check_and_record` still returns normally (the embedded
function is total), with success flag, message and change percentage
exactly as `validate_rate` produced them, and with the store untouched. -/
theorem alert_failure_preserves_result (cfg : MonitorConfig)
    (disk : Option Store) (write_ok : Bool) (rate : Option ℚ)
    (f t ut now : String)
    (hv : (validateRate cfg disk rate f t true).is_valid = false) :
    (checkAndRecord cfg disk write_ok rate f t ut now (some true)).result.success
      = (validateRate cfg disk rate f t true).is_valid ∧
    (checkAndRecord cfg disk write_ok rate f t ut now (some true)).result.message
      = (validateRate cfg disk rate f t true).message ∧
    (checkAndRecord cfg disk write_ok rate f t ut now (some true)).result.change_pct
      = (validateRate cfg disk rate f t true).change_pct ∧
    (checkAndRecord cfg disk write_ok rate f t ut now (some true)).disk = disk := by
  simp [checkAndRecord, hv]

/-- Witness for `alert_failure_preserves_result`: the missing-rate rejection
message survives a raising callback unchanged. -/
theorem alert_failure_preserves_result_witness :
    (checkAndRecord defaultConfig (some [("USD_PHP", ⟨some 56, "ts", ""⟩)])
        true none "CNY" "PHP" "" "T" (some true)).result.message
      = emptyRateMessage :=
  ((alert_failure_preserves_result defaultConfig
      (some [("USD_PHP", ⟨some 56, "ts", ""⟩)]) true none
      "CNY" "PHP" "" "T" rfl).2.1).trans rfl

/-- **C6.** Persistence failures are fail-open: an unreadable store is
treated as the empty history, so with no readable history an in-range rate
is accepted with `change_pct` absent (the volatility check is skipped); on
write failure `record_rate` returns normally leaving the disk as it was,
and the result `check_and_record` returns is the same as on a successful
write. -/
theorem persistence_failure_policy (cfg : MonitorConfig) (r : ℚ)
    (f t ut now : String) (cv : Bool) (disk : Option Store)
    (rate : Option ℚ) (alert_func : Option Bool)
    (h0 : 0 < r) (hmin : cfg.rate_min ≤ r) (hmax : r ≤ cfg.rate_max) :
    loadHistory none = [] ∧
    validateRate cfg none (some r) f t cv = ⟨true, okMessage, none⟩ ∧
    recordRate disk false rate f t ut now = disk ∧
    (checkAndRecord cfg disk false rate f t ut now alert_func).result
      = (checkAndRecord cfg disk true rate f t ut now alert_func).result := by
  have hnr : ¬(r < cfg.rate_min ∨ r > cfg.rate_max) := by
    push_neg
    exact ⟨hmin, hmax⟩
  refine ⟨rfl, ?_, rfl, ?_⟩
  · cases cv <;>
      simp [validateRate, not_le.mpr h0, hnr, getLastRate, loadHistory,
        findRecord]
  · cases hv2 : (validateRate cfg disk rate f t true).is_valid <;>
      cases alert_func <;> simp [checkAndRecord, hv2]

/-- Witness for `persistence_failure_policy` at the spec's concrete rate
`7.85` with an unreadable store. -/
theorem persistence_failure_policy_witness :
    validateRate defaultConfig none (some (157 / 20)) "CNY" "PHP" true
      = ⟨true, okMessage, none⟩ :=
  (persistence_failure_policy defaultConfig (157 / 20) "CNY" "PHP" "" "T"
      true none none none (by norm_num) (by norm_num [defaultConfig])
      (by norm_num [defaultConfig])).2.1

/-- A concrete abstract-time interpretation of `datetime.fromisoformat`
used to exercise `clean_old_records`: the string `"T0"` parses to time `0`,
every other string fails to parse. -/
def parseAtT0 (s : String) : Option ℤ :=
  if s = "T0" then some 0 else none

/-- **C3, counterexample.** With `now = 5` and `days = 5` the cutoff is
`0`; an entry observed exactly at time `0` is exactly `max_age` old — not
strictly older than `max_age` — yet `clean_old_records` removes it, because
the code keeps only entries with `record_date > cutoff_date`. -/
theorem clean_old_records_boundary_cex :
    cleanOldRecords parseAtT0 5 5
        (some [("CNY_PHP", ⟨some 1, "T0", ""⟩)]) true = some [] ∧
    parseAtT0 "T0" = some 0 ∧ ¬(0 : ℤ) < 5 - 5 := by
  refine ⟨rfl, rfl, by norm_num⟩

/-- **C3, amended.** `clean_old_records` removes exactly the entries whose
parsed `timestamp` is `max_age` old *or older* (at or before `now - days`:
the boundary entry exactly `max_age` old is removed too), and retains every
entry whose timestamp fails to parse: an entry is in the cleaned store iff
it was in the history and its timestamp either fails to parse or is
strictly newer than the cutoff. -/
theorem clean_old_records_spec (parseIso : String → Option ℤ)
    (now days : ℤ) (h : Store) (k : String) (r : RateRecord) :
    (k, r) ∈ loadHistory (cleanOldRecords parseIso now days (some h) true) ↔
      ((k, r) ∈ h ∧
        ∀ d : ℤ, parseIso r.timestamp = some d → now - days < d) := by
  simp only [cleanOldRecords, loadHistory, Option.getD_some, if_true,
    List.mem_filter]
  constructor
  · rintro ⟨hm, hp⟩
    refine ⟨hm, fun d hd => ?_⟩
    rw [hd] at hp
    simpa using hp
  · rintro ⟨hm, hp⟩
    refine ⟨hm, ?_⟩
    cases hpd : parseIso r.timestamp with
    | none => simp [hpd]
    | some d =>
      simp only [hpd]
      simpa using hp d hpd

/-- Witness for `clean_old_records_spec`: an entry with an unparsable
timestamp is retained by the cleaning pass. -/
theorem clean_old_records_spec_witness :
    ("CNY_PHP", (⟨some 1, "bad", ""⟩ : RateRecord)) ∈
      loadHistory (cleanOldRecords parseAtT0 5 5
        (some [("CNY_PHP", ⟨some 1, "bad", ""⟩)]) true) := by
  refine (clean_old_records_spec parseAtT0 5 5
      [("CNY_PHP", ⟨some 1, "bad", ""⟩)] "CNY_PHP" ⟨some 1, "bad", ""⟩).mpr
      ⟨by simp, fun d hd => ?_⟩
  rw [show parseAtT0 "bad" = none from rfl] at hd
  exact Option.noConfusion hd

end ExchangeMonitor
